import Mathlib

/-!
Verification of the MobileNetV2 architecture builder and pretrained-weight
loader found in src/src/tool/.ipynb_checkpoints/MobileNetV2-checkpoint.py.

The numeric model: Python floats appearing in the channel arithmetic are
modelled exactly as rationals, Python ints as integers.  Python int(x)
truncates toward zero; Python floor division on ints is Int.fdiv.  Failing
Python statements (assert, raise, attribute and name lookups) are modelled
with Except.
-/

/-- Python int(x): truncation toward zero. -/
def pyInt (x : ℚ) : ℤ :=
  if 0 ≤ x then ⌊x⌋ else ⌈x⌉

/-- Embeds the function make underscore divisible (source lines 20-37):
new_v = max(min_value, int(v + divisor / 2) // divisor * divisor),
bumped by one divisor when new_v < 0.9 * v.  min_value defaults to the
divisor, and every call site in the file passes none for it. -/
def _make_divisible (v : ℚ) (divisor : ℤ) (min_value : Option ℤ) : ℤ :=
  let min_value := min_value.getD divisor
  let new_v := max min_value (Int.fdiv (pyInt (v + (divisor : ℚ) / 2)) divisor * divisor)
  if (new_v : ℚ) < 9 / 10 * v then new_v + divisor else new_v

/-- One inverted residual block as a record of its constructor arguments and
the identity flag computed at construction (source lines 56-62).  The conv
stack internals (expansion, depthwise, projection) live in the external
tensor runtime and are treated as an abstract transformation in forward. -/
structure InvertedResidual where
  inp : ℤ
  oup : ℤ
  stride : ℕ
  expand_ratio : ℤ
  identity : Bool
  deriving DecidableEq, Repr

/-- The InvertedResidual constructor (source lines 57-62): asserts
stride in [1, 2], then sets self.identity = (stride == 1 and inp == oup). -/
def InvertedResidual.make (inp oup : ℤ) (stride : ℕ) (expand_ratio : ℤ) :
    Except String InvertedResidual :=
  if stride = 1 ∨ stride = 2 then
    Except.ok { inp := inp, oup := oup, stride := stride, expand_ratio := expand_ratio,
                identity := stride == 1 && inp == oup }
  else
    Except.error "AssertionError"

/-- The InvertedResidual forward pass (source lines 89-93), with the conv
stack abstracted as a transformation on values. -/
def InvertedResidual.forward (b : InvertedResidual) (conv : ℤ → ℤ) (x : ℤ) : ℤ :=
  if b.identity then x + conv x else conv x

/-- The stem block conv underscore 3x3 underscore bn (source lines 40-45),
recorded by its shape parameters. -/
structure Conv3x3BN where
  inp : ℤ
  oup : ℤ
  stride : ℕ
  deriving DecidableEq, Repr

def conv_3x3_bn (inp oup : ℤ) (stride : ℕ) : Conv3x3BN :=
  { inp := inp, oup := oup, stride := stride }

/-- The projection block conv underscore 1x1 underscore bn (source lines
48-53), recorded by its shape parameters. -/
structure Conv1x1BN where
  inp : ℤ
  oup : ℤ
  deriving DecidableEq, Repr

def conv_1x1_bn (inp oup : ℤ) : Conv1x1BN :=
  { inp := inp, oup := oup }

/-- First configuration table self.cfgs1 (source lines 100-107), rows
(t, c, n, s). -/
def cfgs1 : List (ℤ × ℤ × ℕ × ℕ) :=
  [(1, 16, 1, 1), (6, 24, 2, 2), (6, 32, 3, 2), (6, 64, 4, 2), (6, 96, 3, 1)]

/-- Second configuration table self.cfgs2 (source lines 108-112). -/
def cfgs2 : List (ℤ × ℤ × ℕ × ℕ) :=
  [(6, 160, 3, 2), (6, 320, 1, 1)]

/-- The inner loop for i in range(n) of the assembler (source lines
120-122 and 127-129): block(input_channel, output_channel, s if i == 0
else 1, t), then input_channel = output_channel. -/
def rowLoop (t : ℤ) (output_channel : ℤ) (s : ℕ) :
    List ℕ → ℤ → Except String (List InvertedResidual × ℤ)
  | [], input_channel => Except.ok ([], input_channel)
  | i :: rest, input_channel => do
      let b ← InvertedResidual.make input_channel output_channel (if i = 0 then s else 1) t
      let (bs, fin) ← rowLoop t output_channel s rest output_channel
      Except.ok (b :: bs, fin)

/-- The outer loop for t, c, n, s in cfgs of the assembler (source lines
118-122 and 125-129): output_channel = make divisible of c * width_mult
with divisor 4 if width_mult == 0.1 else 8, then the inner block loop. -/
def stageLoop (width_mult : ℚ) :
    List (ℤ × ℤ × ℕ × ℕ) → ℤ → Except String (List InvertedResidual × ℤ)
  | [], input_channel => Except.ok ([], input_channel)
  | (t, c, n, s) :: rows, input_channel => do
      let output_channel :=
        _make_divisible ((c : ℚ) * width_mult) (if width_mult = 1 / 10 then 4 else 8) none
      let (bs, input2) ← rowLoop t output_channel s (List.range n) input_channel
      let (bs2, fin) ← stageLoop width_mult rows input2
      Except.ok (bs ++ bs2, fin)

/-- The assembled network: stem, the two block stages self.features and
self.features2, and the final projection self.conv (source lines 96-137). -/
structure MobileNetV2 where
  stem : Conv3x3BN
  features : List InvertedResidual
  features2 : List InvertedResidual
  conv : Conv1x1BN
  deriving DecidableEq, Repr

/-- The MobileNetV2 constructor (source lines 97-137): stem channels from
32 * width_mult, the two staged block loops over cfgs1 and cfgs2, and the
final projection whose output channels are rounded only when
width_mult > 1.0. -/
def MobileNetV2.build (width_mult : ℚ) : Except String MobileNetV2 := do
  let input_channel :=
    _make_divisible (32 * width_mult) (if width_mult = 1 / 10 then 4 else 8) none
  let stem := conv_3x3_bn 3 input_channel 2
  let (features, ic1) ← stageLoop width_mult cfgs1 input_channel
  let (features2, ic2) ← stageLoop width_mult cfgs2 ic1
  let output_channel : ℤ :=
    if 1 < width_mult then
      _make_divisible (1280 * width_mult) (if width_mult = 1 / 10 then 4 else 8) none
    else 1280
  Except.ok { stem := stem, features := features, features2 := features2,
              conv := conv_1x1_bn ic2 output_channel }

/-- Divisor-generic variant of the stage loop, following the spec sentence
that a single divisor d is used for every rounding call; compared against
stageLoop to settle which divisor the network uses. -/
def stageLoopWithDivisor (width_mult : ℚ) (d : ℤ) :
    List (ℤ × ℤ × ℕ × ℕ) → ℤ → Except String (List InvertedResidual × ℤ)
  | [], input_channel => Except.ok ([], input_channel)
  | (t, c, n, s) :: rows, input_channel => do
      let output_channel := _make_divisible ((c : ℚ) * width_mult) d none
      let (bs, input2) ← rowLoop t output_channel s (List.range n) input_channel
      let (bs2, fin) ← stageLoopWithDivisor width_mult d rows input2
      Except.ok (bs ++ bs2, fin)

/-- Divisor-generic variant of the builder, following the spec sentence
that every rounding call in the network uses one divisor d. -/
def MobileNetV2.buildWithDivisor (width_mult : ℚ) (d : ℤ) : Except String MobileNetV2 := do
  let input_channel := _make_divisible (32 * width_mult) d none
  let stem := conv_3x3_bn 3 input_channel 2
  let (features, ic1) ← stageLoopWithDivisor width_mult d cfgs1 input_channel
  let (features2, ic2) ← stageLoopWithDivisor width_mult d cfgs2 ic1
  let output_channel : ℤ :=
    if 1 < width_mult then _make_divisible (1280 * width_mult) d none else 1280
  Except.ok { stem := stem, features := features, features2 := features2,
              conv := conv_1x1_bn ic2 output_channel }

/-- A block record as the constructor produces it when the stride assert
passes; used by the spec-side description of a configuration row. -/
def mkBlock (inp oup : ℤ) (stride : ℕ) (expand_ratio : ℤ) : InvertedResidual :=
  { inp := inp, oup := oup, stride := stride, expand_ratio := expand_ratio,
    identity := stride == 1 && inp == oup }

/-- Spec-side description of one configuration row: n blocks, the first
with the row stride and input threaded in, the remaining n - 1 identical
blocks with stride 1 and input equal to the row output channels. -/
def specRowBlocks (t : ℤ) (input_channel output_channel : ℤ) (s : ℕ) :
    ℕ → List InvertedResidual
  | 0 => []
  | n + 1 =>
      mkBlock input_channel output_channel s t ::
        List.replicate n (mkBlock output_channel output_channel 1 t)

/-- Spec-side description of a stage: rounded output channels per row, the
row blocks of specRowBlocks, and the input channel threaded across rows. -/
def specStage (width_mult : ℚ) :
    List (ℤ × ℤ × ℕ × ℕ) → ℤ → List InvertedResidual × ℤ
  | [], input_channel => ([], input_channel)
  | (t, c, n, s) :: rows, input_channel =>
      let output_channel :=
        _make_divisible ((c : ℚ) * width_mult) (if width_mult = 1 / 10 then 4 else 8) none
      let (bs2, fin) :=
        specStage width_mult rows (if n = 0 then input_channel else output_channel)
      (specRowBlocks t input_channel output_channel s n ++ bs2, fin)

/-- Whether the first character list starts the second one. -/
def leadsWith : List Char → List Char → Bool
  | [], _ => true
  | _ :: _, [] => false
  | a :: as, b :: bs => a == b && leadsWith as bs

/-- Python str.replace semantics: replace every non-overlapping occurrence
of the pattern, scanning left to right; fuel is the remaining length. -/
def pyReplaceAux (pat rep : List Char) : ℕ → List Char → List Char
  | _, [] => []
  | 0, s => s
  | fuel + 1, c :: rest =>
      if leadsWith pat (c :: rest) then
        rep ++ pyReplaceAux pat rep fuel (List.drop (pat.length - 1) rest)
      else
        c :: pyReplaceAux pat rep fuel rest

/-- Python s.replace(pat, rep) for a nonempty pattern. -/
def pyReplace (s pat rep : String) : String :=
  String.mk (pyReplaceAux pat.data rep.data s.data.length s.data)

/-- n1 = k1.replace(module-dot, empty) on external checkpoint names
(source line 176). -/
def stripModule (k : String) : String :=
  pyReplace k "module." ""

/-- The chained renaming of internal names (source lines 180-183):
features2.0 through features2.3 onto features.14 through features.17. -/
def remap (k : String) : String :=
  pyReplace
    (pyReplace
      (pyReplace
        (pyReplace k "features2.0." "features.14.")
        "features2.1." "features.15.")
      "features2.2." "features.16.")
    "features2.3." "features.17."

/-- The double loop of the pretrained loader (source lines 175-187): for
every checkpoint entry and every model entry, when the stripped external
name equals the remapped internal name, overwrite the internal value. -/
def loadLoop {α : Type} (checkpoint model_dict : List (String × α)) : List (String × α) :=
  checkpoint.foldl
    (fun md kv => md.map (fun p => if stripModule kv.1 = remap p.1 then (p.1, kv.2) else p))
    model_dict

/-- For a given remapped internal name, the value of the last checkpoint
entry whose stripped name equals it, folded from a starting accumulator. -/
def lastMatchFrom {α : Type} (checkpoint : List (String × α)) (n2 : String)
    (acc : Option α) : Option α :=
  checkpoint.foldl (fun a kv => if stripModule kv.1 = n2 then some kv.2 else a) acc

/-- The last checkpoint value whose stripped name equals the given
remapped internal name, if any. -/
def lastMatch {α : Type} (checkpoint : List (String × α)) (n2 : String) : Option α :=
  lastMatchFrom checkpoint n2 none

/-- Python runtime errors reachable in the loader path. -/
inductive PyError where
  | attributeError (obj attr : String)
  | nameError (name : String)
  | exception (msg : String)
  deriving DecidableEq, Repr

/-- Model of the case-sensitive attribute surface of the external tensor
runtime namespace nn, restricted to the names this file could reference:
the class Module exists, a lowercase module attribute does not. -/
def nnAttrs : List String :=
  ["Module", "Sequential", "Conv2d", "BatchNorm2d", "ReLU6", "Linear"]

/-- The base-class attribute name written in the class statement of
mnv2_model (source line 163): lowercase module. -/
def mnv2_model_base : String := "module"

/-- Evaluating the class statement of mnv2_model: the base expression
nn.module is an attribute lookup on nn, performed before the class body or
any method can run. -/
def evalClassDef_mnv2_model : Except PyError Unit :=
  if mnv2_model_base ∈ nnAttrs then Except.ok ()
  else Except.error (PyError.attributeError "torch.nn" mnv2_model_base)

/-- The module-level global names defined by the file; the bare name
pretrained is not among them. -/
def moduleGlobals : List String :=
  ["__all__", "nn", "math", "torch", "load_state_dict_from_url", "_make_divisible",
   "conv_3x3_bn", "conv_1x1_bn", "InvertedResidual", "MobileNetV2", "mnv2_model"]

/-- The method mobilenetv2 of mnv2_model (source lines 168-193), with the
truthiness test on self.pretrained modelled on strings (empty is falsy).
In the else branch the raise statement evaluates format(pretrained): the
bare name pretrained is not a method local and not a module global, so the
lookup itself raises NameError before the Exception can be built. -/
def mnv2_model.mobilenetv2 (pretrained : String)
    (checkpoint model_dict : List (String × ℤ)) :
    Except PyError (List (String × ℤ)) :=
  if pretrained ≠ "" then
    Except.ok (loadLoop checkpoint model_dict)
  else if moduleGlobals.contains "pretrained" then
    Except.error (PyError.exception
      ("darknet request a pretrained path. got [" ++ pretrained ++ "]"))
  else
    Except.error (PyError.nameError "pretrained")

/-- Any use of the pretrained loading path: the class statement of
mnv2_model must evaluate before an instance exists and the method can be
called. -/
def invokeLoader (pretrained : String) (checkpoint model_dict : List (String × ℤ)) :
    Except PyError (List (String × ℤ)) := do
  let _ ← evalClassDef_mnv2_model
  mnv2_model.mobilenetv2 pretrained checkpoint model_dict

/-! ## Helper lemmas -/

theorem lastMatchFrom_cons {α : Type} (kv : String × α) (tl : List (String × α))
    (n2 : String) (a : Option α) :
    lastMatchFrom (kv :: tl) n2 a =
      lastMatchFrom tl n2 (if stripModule kv.1 = n2 then some kv.2 else a) := rfl

theorem lastMatchFrom_getD {α : Type} (n2 : String) :
    ∀ (ckpt : List (String × α)) (a : Option α) (dflt : α),
      (lastMatchFrom ckpt n2 a).getD dflt =
        (lastMatchFrom ckpt n2 none).getD (a.getD dflt) := by
  intro ckpt
  induction ckpt with
  | nil => intro a dflt; rfl
  | cons kv tl ih =>
      intro a dflt
      rw [lastMatchFrom_cons, lastMatchFrom_cons]
      by_cases h : stripModule kv.1 = n2
      · rw [if_pos h, if_pos h, ih (some kv.2) dflt, ih (some kv.2) (a.getD dflt)]
        simp
      · rw [if_neg h, if_neg h]
        exact ih a dflt

theorem loadLoop_cons {α : Type} (kv : String × α) (tl : List (String × α))
    (md : List (String × α)) :
    loadLoop (kv :: tl) md =
      loadLoop tl (md.map (fun p => if stripModule kv.1 = remap p.1 then (p.1, kv.2) else p)) :=
  rfl

/-! ## Claim theorems -/

/-- Claim C1: for every target value v > 0 and divisor d in 4, 8, the
channel rounding returns a positive multiple of d that is at least
nine tenths of v; rounding down by more than ten percent is corrected by
bumping up one divisor step. -/
theorem make_divisible_positive_multiple_bound (v : ℚ) (d : ℤ)
    (hv : 0 < v) (hd : d = 4 ∨ d = 8) :
    d ∣ _make_divisible v d none ∧ 0 < _make_divisible v d none ∧
      9 / 10 * v ≤ ((_make_divisible v d none : ℤ) : ℚ) := by
  have hd4 : (4 : ℤ) ≤ d := by rcases hd with h | h <;> simp [h]
  have hdpos : (0 : ℤ) < d := by omega
  have hdq : (4 : ℚ) ≤ (d : ℚ) := by exact_mod_cast hd4
  have hx : (0 : ℚ) ≤ v + (d : ℚ) / 2 := by linarith
  have hpy : pyInt (v + (d : ℚ) / 2) = ⌊v + (d : ℚ) / 2⌋ := if_pos hx
  set x : ℚ := v + (d : ℚ) / 2 with hxdef
  set m : ℤ := Int.fdiv (pyInt x) d * d with hmdef
  have hfd : Int.fdiv (pyInt x) d = pyInt x / d := Int.fdiv_eq_ediv _ (le_of_lt hdpos)
  have hdvd_m : d ∣ m := by rw [hmdef]; exact dvd_mul_left d _
  have hmge : ⌊x⌋ - d + 1 ≤ m := by
    have e1 := Int.ediv_add_emod ⌊x⌋ d
    have e2 := Int.emod_lt_of_pos ⌊x⌋ hdpos
    have e3 : m = d * (⌊x⌋ / d) := by rw [hmdef, hfd, hpy, mul_comm]
    omega
  have hfl : x - 1 < (⌊x⌋ : ℚ) := Int.sub_one_lt_floor x
  have hunf : _make_divisible v d none =
      if ((max d m : ℤ) : ℚ) < 9 / 10 * v then max d m + d else max d m := rfl
  rw [hunf]
  have hdvd_nv : d ∣ max d m := by
    rcases max_choice d m with h | h
    · rw [h]
    · rw [h]
      exact hdvd_m
  have hnv_ge_d : d ≤ max d m := le_max_left d m
  have hnv_ge_m : m ≤ max d m := le_max_right d m
  have hnv_pos : 0 < max d m := lt_of_lt_of_le hdpos hnv_ge_d
  split
  · rename_i hlt
    refine ⟨dvd_add hdvd_nv (dvd_refl d), by omega, ?_⟩
    have c1 : ((⌊x⌋ - d + 1 : ℤ) : ℚ) ≤ ((m : ℤ) : ℚ) := by exact_mod_cast hmge
    have c2 : ((m : ℤ) : ℚ) ≤ ((max d m : ℤ) : ℚ) := by exact_mod_cast hnv_ge_m
    push_cast at c1 c2 ⊢
    rw [hxdef] at hfl
    linarith
  · rename_i hge
    refine ⟨hdvd_nv, hnv_pos, le_of_not_lt hge⟩

/-- Witness for C1 at v = 1, d = 8. -/
theorem make_divisible_positive_multiple_bound_witness :
    (0 : ℚ) < 1 ∧ ((8 : ℤ) = 4 ∨ (8 : ℤ) = 8) ∧
    ((8 : ℤ) ∣ _make_divisible 1 8 none ∧ 0 < _make_divisible 1 8 none ∧
      9 / 10 * 1 ≤ ((_make_divisible 1 8 none : ℤ) : ℚ)) :=
  ⟨by norm_num, by norm_num,
   make_divisible_positive_multiple_bound 1 8 (by norm_num) (by norm_num)⟩

/-- Claim C2: a constructed block has identity flag set iff stride equals 1
and input channels equal output channels; the flag is a construction-time
field, and forward adds the input to the transformed input exactly when
the flag is set, otherwise returns the transformed input only. -/
theorem inverted_residual_identity_flag (inp oup : ℤ) (stride : ℕ) (t : ℤ)
    (b : InvertedResidual)
    (hb : InvertedResidual.make inp oup stride t = Except.ok b) :
    (b.identity = true ↔ (stride = 1 ∧ inp = oup)) ∧
    (∀ (conv : ℤ → ℤ) (x : ℤ),
      (b.identity = true → b.forward conv x = x + conv x) ∧
      (b.identity = false → b.forward conv x = conv x)) := by
  unfold InvertedResidual.make at hb
  split at hb
  · simp only [Except.ok.injEq] at hb
    subst hb
    constructor
    · simp [Bool.and_eq_true, beq_iff_eq]
    · intro conv x
      constructor
      · intro h
        unfold InvertedResidual.forward
        rw [h]
        simp
      · intro h
        unfold InvertedResidual.forward
        rw [h]
        simp
  · exact absurd hb (by simp)

/-- Witness for C2 at inp = 8, oup = 8, stride = 1, t = 6. -/
theorem inverted_residual_identity_flag_witness :
    InvertedResidual.make 8 8 1 6 = Except.ok ⟨8, 8, 1, 6, true⟩ ∧
    ((InvertedResidual.identity ⟨8, 8, 1, 6, true⟩ = true ↔ ((1 : ℕ) = 1 ∧ (8 : ℤ) = 8)) ∧
     (∀ (conv : ℤ → ℤ) (x : ℤ),
       (InvertedResidual.identity ⟨8, 8, 1, 6, true⟩ = true →
         InvertedResidual.forward ⟨8, 8, 1, 6, true⟩ conv x = x + conv x) ∧
       (InvertedResidual.identity ⟨8, 8, 1, 6, true⟩ = false →
         InvertedResidual.forward ⟨8, 8, 1, 6, true⟩ conv x = conv x))) :=
  ⟨rfl, inverted_residual_identity_flag 8 8 1 6 ⟨8, 8, 1, 6, true⟩ rfl⟩

/-- Claim C3, settled against the code as written: invoking the method
with an empty source locator raises NameError on the bare name pretrained
while building the message, not the intended Exception echoing the value;
and any use of the loader path already fails at the class statement. -/
theorem loader_missing_source_behavior (checkpoint model_dict : List (String × ℤ)) :
    mnv2_model.mobilenetv2 "" checkpoint model_dict
        = Except.error (PyError.nameError "pretrained") ∧
    invokeLoader "" checkpoint model_dict
        = Except.error (PyError.attributeError "torch.nn" "module") :=
  ⟨rfl, rfl⟩

/-- Claim C4: after stripping the distributed prefix and remapping
second-stage names, the loader loop maps every internal entry to the value
of the last matching external entry, and leaves every unmatched internal
entry at its prior value; internal keys and order are preserved and no
other output is produced. -/
theorem pretrained_remap_overwrite_frame {α : Type} :
    ∀ (checkpoint model_dict : List (String × α)),
      loadLoop checkpoint model_dict =
        model_dict.map (fun p => (p.1, (lastMatch checkpoint (remap p.1)).getD p.2)) := by
  intro ckpt
  induction ckpt with
  | nil =>
      intro md
      simp [loadLoop, lastMatch, lastMatchFrom]
  | cons kv tl ih =>
      intro md
      rw [loadLoop_cons, ih, List.map_map]
      refine List.map_congr_left ?_
      intro p _
      by_cases h : stripModule kv.1 = remap p.1
      · simp only [Function.comp_apply, if_pos h]
        have hlm : lastMatch (kv :: tl) (remap p.1)
            = lastMatchFrom tl (remap p.1) (some kv.2) := by
          unfold lastMatch
          rw [lastMatchFrom_cons, if_pos h]
        rw [hlm, lastMatchFrom_getD]
        simp [lastMatch]
      · simp only [Function.comp_apply, if_neg h]
        have hlm : lastMatch (kv :: tl) (remap p.1) = lastMatch tl (remap p.1) := by
          unfold lastMatch
          rw [lastMatchFrom_cons, if_neg h]
        rw [hlm]

/-- Claim C5: the final projection channel count is the channel rounding
of 1280 times the width multiplier when the multiplier exceeds 1.0, and
exactly 1280 otherwise. -/
theorem final_projection_channels (wm : ℚ) :
    (1 < wm → ∃ net, MobileNetV2.build wm = Except.ok net ∧
        net.conv.oup = _make_divisible (1280 * wm) (if wm = 1 / 10 then 4 else 8) none) ∧
    (¬ 1 < wm → ∃ net, MobileNetV2.build wm = Except.ok net ∧ net.conv.oup = 1280) := by
  constructor
  · intro h
    refine ⟨_, rfl, ?_⟩
    show (if 1 < wm then _make_divisible (1280 * wm) (if wm = 1 / 10 then 4 else 8) none
          else (1280 : ℤ))
        = _make_divisible (1280 * wm) (if wm = 1 / 10 then 4 else 8) none
    rw [if_pos h]
  · intro h
    refine ⟨_, rfl, ?_⟩
    show (if 1 < wm then _make_divisible (1280 * wm) (if wm = 1 / 10 then 4 else 8) none
          else (1280 : ℤ)) = 1280
    rw [if_neg h]

/-- Witness for C5 at width multipliers 2 and 1. -/
theorem final_projection_channels_witness :
    ((1 : ℚ) < 2 ∧ ∃ net, MobileNetV2.build 2 = Except.ok net ∧
        net.conv.oup = _make_divisible (1280 * 2) (if (2 : ℚ) = 1 / 10 then 4 else 8) none) ∧
    (¬ (1 : ℚ) < 1 ∧ ∃ net, MobileNetV2.build 1 = Except.ok net ∧ net.conv.oup = 1280) :=
  ⟨⟨by norm_num, (final_projection_channels 2).1 (by norm_num)⟩,
   ⟨by norm_num, (final_projection_channels 1).2 (by norm_num)⟩⟩

/-- Claim C6: for every configuration row of either table the assembler
emits exactly n blocks, the first with the row stride and the remaining
ones with stride 1, input channels threaded from the previous block output
across blocks and rows; stated as equality with the spec-side stage
description. -/
theorem assembler_rows_refinement (wm : ℚ) (input_channel : ℤ) :
    stageLoop wm cfgs1 input_channel = Except.ok (specStage wm cfgs1 input_channel) ∧
    stageLoop wm cfgs2 input_channel = Except.ok (specStage wm cfgs2 input_channel) :=
  ⟨rfl, rfl⟩

/-- Claim C7: exactly at width multiplier 0.1 every rounding call of the
network uses divisor 4, and for every other width multiplier every
rounding call uses divisor 8. -/
theorem divisor_switch_at_tenth (wm : ℚ) :
    (wm = 1 / 10 → MobileNetV2.build wm = MobileNetV2.buildWithDivisor wm 4) ∧
    (wm ≠ 1 / 10 → MobileNetV2.build wm = MobileNetV2.buildWithDivisor wm 8) := by
  constructor
  · intro h
    have h4 : (if wm = 1 / 10 then (4 : ℤ) else 8) = 4 := if_pos h
    simp only [MobileNetV2.build, MobileNetV2.buildWithDivisor, stageLoop,
      stageLoopWithDivisor, cfgs1, cfgs2, h4]
  · intro h
    have h8 : (if wm = 1 / 10 then (4 : ℤ) else 8) = 8 := if_neg h
    simp only [MobileNetV2.build, MobileNetV2.buildWithDivisor, stageLoop,
      stageLoopWithDivisor, cfgs1, cfgs2, h8]

/-- Witness for C7 at width multipliers 0.1 and 2. -/
theorem divisor_switch_at_tenth_witness :
    ((1 / 10 : ℚ) = 1 / 10 ∧
      MobileNetV2.build (1 / 10) = MobileNetV2.buildWithDivisor (1 / 10) 4) ∧
    ((2 : ℚ) ≠ 1 / 10 ∧ MobileNetV2.build 2 = MobileNetV2.buildWithDivisor 2 8) :=
  ⟨⟨rfl, (divisor_switch_at_tenth (1 / 10)).1 rfl⟩,
   ⟨by norm_num, (divisor_switch_at_tenth 2).2 (by norm_num)⟩⟩

/-- Claim C8: constructing a block with a stride other than 1 or 2 is a
fatal construction error that also aborts a stage build containing such a
row; under stride in 1, 2 construction never raises. -/
theorem inverted_residual_stride_assert (inp oup : ℤ) (stride : ℕ) (t : ℤ) :
    (stride ≠ 1 ∧ stride ≠ 2 →
      InvertedResidual.make inp oup stride t = Except.error "AssertionError") ∧
    (stride = 1 ∨ stride = 2 → ∃ b, InvertedResidual.make inp oup stride t = Except.ok b) ∧
    (stride ≠ 1 ∧ stride ≠ 2 → ∀ (wm : ℚ) (input : ℤ),
      stageLoop wm [(t, 24, 2, stride)] input = Except.error "AssertionError") := by
  refine ⟨?_, ?_, ?_⟩
  · intro h
    unfold InvertedResidual.make
    rw [if_neg]
    omega
  · intro h
    unfold InvertedResidual.make
    rw [if_pos h]
    exact ⟨_, rfl⟩
  · intro h wm input
    have herr : InvertedResidual.make input
        (_make_divisible (((24 : ℤ) : ℚ) * wm) (if wm = 1 / 10 then 4 else 8) none) stride t
        = Except.error "AssertionError" := by
      unfold InvertedResidual.make
      rw [if_neg]
      omega
    have h2 : List.range 2 = [0, 1] := rfl
    simp at herr
    simp [stageLoop, h2, rowLoop, herr]
    rfl

/-- Witness for C8 at strides 3 and 2. -/
theorem inverted_residual_stride_assert_witness :
    (((3 : ℕ) ≠ 1 ∧ (3 : ℕ) ≠ 2) ∧
      InvertedResidual.make 8 16 3 6 = Except.error "AssertionError") ∧
    (((2 : ℕ) = 1 ∨ (2 : ℕ) = 2) ∧ ∃ b, InvertedResidual.make 8 16 2 6 = Except.ok b) ∧
    stageLoop 1 [(6, 24, 2, 3)] 32 = Except.error "AssertionError" :=
  ⟨⟨by decide, (inverted_residual_stride_assert 8 16 3 6).1 (by decide)⟩,
   ⟨by decide, (inverted_residual_stride_assert 8 16 2 6).2.1 (by decide)⟩,
   (inverted_residual_stride_assert 8 16 3 6).2.2 (by decide) 1 32⟩

/-- Claim C9: the builder is a pure function of the width multiplier, so
two builds agree; the stage block counts equal the sums of the repeat
counts of the two tables, the total is their sum, and the partition is
five rows then two rows of the single classic seven-row table. -/
theorem assembler_determinism_block_counts (wm : ℚ) :
    MobileNetV2.build wm = MobileNetV2.build wm ∧
    ∃ net, MobileNetV2.build wm = Except.ok net ∧
      net.features.length = (cfgs1.map (fun r => r.2.2.1)).sum ∧
      net.features2.length = (cfgs2.map (fun r => r.2.2.1)).sum ∧
      net.features.length + net.features2.length =
        ((cfgs1 ++ cfgs2).map (fun r => r.2.2.1)).sum ∧
      cfgs1.length = 5 ∧ cfgs2.length = 2 ∧
      cfgs1 ++ cfgs2 = [(1, 16, 1, 1), (6, 24, 2, 2), (6, 32, 3, 2), (6, 64, 4, 2),
        (6, 96, 3, 1), (6, 160, 3, 2), (6, 320, 1, 1)] :=
  ⟨rfl, _, rfl, rfl, rfl, rfl, rfl, rfl, rfl⟩

/-- Claim C10: the class statement of the pretrained loader names a base
attribute, lowercase module, that the runtime namespace does not have, so
evaluating the class statement and therefore any use of the loading path
fails unconditionally before the missing-source check or the remapping
can execute. -/
theorem class_base_attribute_missing :
    evalClassDef_mnv2_model = Except.error (PyError.attributeError "torch.nn" "module") ∧
    nnAttrs.contains "Module" = true ∧ nnAttrs.contains "module" = false ∧
    ∀ (pretrained : String) (checkpoint model_dict : List (String × ℤ)),
      invokeLoader pretrained checkpoint model_dict
        = Except.error (PyError.attributeError "torch.nn" "module") :=
  ⟨rfl, by decide, by decide, fun _ _ _ => rfl⟩
